import Mathlib

/-!
Verification of the Gaussian classifier in
`src/labs/lab02/lab02_gaussian_classifier.py`.

The statistical core of the script is embedded shallowly: matrices become
lists of rows, numpy float arithmetic becomes exact arithmetic in a linear
ordered field (`ℚ` for the estimator, `ℝ` for the density evaluator, whose
closed form uses `Real.pi` and `Real.exp`), and the one fallible operation
(`fit_gaussian_classifier` on an unrecognized covariance tag) returns
`Except`.  Division by zero never occurs on the inputs the theorems below
quantify over, except where noted in a doc comment.
-/

namespace Lab02

/-- Container for Gaussian classifier parameters, mirroring the Python
dataclass `GaussianClassifier`: covariance-type tag `gtype`, `priors`
(length K), `means` (K rows of length D) and `variances` (length K for
tag "I", length 1 for tag "i").  Parametric in the scalar field so that the
estimator can be evaluated exactly over `ℚ` and also feed the real-valued
density evaluator. -/
structure GaussianClassifier (α : Type) where
  gtype : String
  priors : List α
  means : List (List α)
  variances : List α

/-- The value of `np.unique(y)` for integer labels: the distinct labels of
`y` in increasing order. -/
def uniqueSorted (y : List Nat) : List Nat :=
  (List.range (y.foldr max 0 + 1)).filter (fun k => decide (k ∈ y))

/-- The rows `X[y == k]`: feature rows whose label equals `k`. -/
def rowsWithLabel {α : Type} (X : List (List α)) (y : List Nat) (k : Nat) :
    List (List α) :=
  ((X.zip y).filter (fun p => decide (p.2 = k))).map Prod.fst

/-- The value of `Xk.mean(axis=0)`: per-dimension arithmetic mean of the
rows of one class. -/
def classMean {α : Type} [LinearOrderedField α] (rows : List (List α)) (D : Nat) :
    List α :=
  (List.range D).map (fun j => (rows.map (fun r => r.getD j 0)).sum / (rows.length : α))

/-- One entry of `np.sum((Xk - means[idx]) ** 2, axis=1)`: squared deviation
of a row from the class mean, summed over the dimensions. -/
def rowSqDev {α : Type} [Ring α] (r mean : List α) : α :=
  ((List.zipWith (fun a b => a - b) r mean).map (fun d => d * d)).sum

/-- The per-class quantity `sq_norm.sum() / (Xk.shape[0] * D)` accumulated
into `variances` by the fitting loop: the average per-dimension squared
deviation of class `k` about its mean. -/
def classSpread {α : Type} [LinearOrderedField α]
    (X : List (List α)) (y : List Nat) (k D : Nat) : α :=
  let rows := rowsWithLabel X y k
  (rows.map (fun r => rowSqDev r (classMean rows D))).sum / ((rows.length * D : Nat) : α)

/-- The variance floor `1e-9` applied by `np.clip(variances, 1e-9, None)`. -/
def varFloor {α : Type} [DivisionRing α] : α := 1 / 10 ^ 9

/-- The estimator `fit_gaussian_classifier(X, y, gtype)`.  For a recognized
tag it computes, per class in `np.unique(y)`, the prior (class count over
total count), the per-dimension mean, and the average squared deviation
`classSpread`; tag "I" keeps one floored spread per class, tag "i" stores
the single floored value `(Σ_k classSpread k) / K` (the loop accumulates
all spreads into slot 0, then divides by `K` and clips).  An unrecognized
tag raises `ValueError`, embedded as `Except.error`. -/
def fit_gaussian_classifier {α : Type} [LinearOrderedField α]
    (X : List (List α)) (y : List Nat) (gtype : String) :
    Except String (GaussianClassifier α) :=
  if gtype = "I" ∨ gtype = "i" then
    let classes := uniqueSorted y
    let K := classes.length
    let D := (X.headD []).length
    let priors := classes.map (fun k => ((rowsWithLabel X y k).length : α) / (X.length : α))
    let means := classes.map (fun k => classMean (rowsWithLabel X y k) D)
    let vs := classes.map (fun k => classSpread X y k D)
    let variances :=
      if gtype = "I" then vs.map (fun v => max v varFloor)
      else [max (vs.sum / (K : α)) varFloor]
    Except.ok ⟨gtype, priors, means, variances⟩
  else
    Except.error ("Unsupported covariance type " ++ gtype)

/-- The per-class spread `v_k` in the words of the specification: the
per-sample squared deviation from the class mean, summed over dimensions
and samples, divided by (class sample count × D).  Stated independently of
the source translation `classSpread` so the two can be compared. -/
def specClassSpread {α : Type} [LinearOrderedField α]
    (X : List (List α)) (y : List Nat) (k D : Nat) : α :=
  let rows := rowsWithLabel X y k
  let mean := classMean rows D
  (rows.map (fun r =>
    ((List.zipWith (fun a b => a - b) r mean).map (fun d => d * d)).sum)).sum
    / ((rows.length : α) * (D : α))

/-- The contents of the three array arguments of `gm_sample` after the call
returns, under numpy aliasing semantics for its first lines:
`np.asarray(a, dtype=float)` applied to an array that already has dtype
float returns the same buffer without copying, so the augmented assignment
`priors /= priors.sum()` writes the normalized weights into the buffer the
caller passed; `means` and `variances` are only read. -/
def gm_sample_argContents (priors : List ℚ) (means : List (List ℚ))
    (variances : List ℚ) : List ℚ × List (List ℚ) × List ℚ :=
  (priors.map (fun w => w / priors.sum), means, variances)

noncomputable section

/-- The class-conditional density `p(x | C = k)` computed by the loop of
`gaussian_pdf` for one query row `x`: the isotropic Gaussian closed form
`(2π σ²)^(-D/2) · exp(-0.5 ‖x - mean_k‖² / σ²)`, with `σ²` read from the
shared slot for tag "i" and from slot `k` otherwise. -/
def classCond (model : GaussianClassifier ℝ) (D : Nat) (x : List ℝ) (k : Nat) : ℝ :=
  let sigma2 := if model.gtype = "i" then model.variances.getD 0 0
                else model.variances.getD k 0
  let coef := 1 / ((2 * Real.pi * sigma2) ^ ((D : ℝ) / 2))
  let diff := List.zipWith (fun a b => a - b) x (model.means.getD k [])
  coef * Real.exp (-(1 / 2) * ((diff.map (fun d => d * d)).sum) / sigma2)

/-- The four arrays returned by `gaussian_pdf`: clipped evidence `px`,
class-conditional densities `px_given_c`, posteriors `p_c_given_x` and
joint densities `px_and_c`. -/
structure PdfResult where
  px : List ℝ
  px_given_c : List (List ℝ)
  p_c_given_x : List (List ℝ)
  px_and_c : List (List ℝ)

/-- The evidence floor `1e-12` applied by `np.clip(px, 1e-12, None)`. -/
def evFloor : ℝ := 1 / 10 ^ 12

/-- The density evaluator `gaussian_pdf(X, model)`.  Row by row it computes
the class-conditional densities, the joint densities (elementwise product
with the priors), the evidence (matrix-vector product
`px_given_c @ priors`, which on each row is the sum of the joint row),
clipped below at `evFloor`, and the posteriors (joint divided by the
clipped evidence). -/
def gaussian_pdf (X : List (List ℝ)) (model : GaussianClassifier ℝ) : PdfResult :=
  let K := model.priors.length
  let D := (X.headD []).length
  let pxgc := X.map (fun x => (List.range K).map (classCond model D x))
  let pxc := pxgc.map (fun row => List.zipWith (fun a b => a * b) row model.priors)
  let px := pxc.map (fun row => max row.sum evFloor)
  let pcx := List.zipWith (fun row e => row.map (fun v => v / e)) pxc px
  ⟨px, pxgc, pcx, pxc⟩

/-- The value of `np.argmax` on one row: index of the first maximal entry
(left-to-right scan, strict improvement required to move). -/
def listArgmax (l : List ℝ) : Nat :=
  (l.enum.foldl (fun acc p => if acc.2 < p.2 then p else acc) (0, l.headD 0)).1

/-- The metrics dictionary built by `evaluate_classifier` (the binary-only
ROC fields, produced by sklearn and not touched by any claim, are not
modelled). -/
structure Evaluation where
  y_pred : List Nat
  error : ℝ
  confusion : List (List Nat)
  confusion_norm : List (List ℝ)
  posteriors : List (List ℝ)

/-- The scorer `evaluate_classifier(X, y, model)`: posteriors from
`gaussian_pdf`, predictions by row-wise argmax, error rate
`np.mean(y_pred != y)`, confusion matrix over the label set `np.unique(y)`
(entry (t, p) counts samples with true label `t` and prediction `p`; a
sample predicted outside the label set is dropped, as sklearn does given
`labels=labels`), and the row-normalized matrix
`cn_counts / cn_counts.sum(axis=1)` followed by `np.nan_to_num`.  On an
all-zero row numpy produces `0/0 = nan` which `nan_to_num` sends to `0`;
this embedding obtains the same `0` from division by zero in `ℝ`. -/
def evaluate_classifier (X : List (List ℝ)) (y : List Nat)
    (model : GaussianClassifier ℝ) : Evaluation :=
  let posteriors := (gaussian_pdf X model).p_c_given_x
  let y_pred := posteriors.map listArgmax
  let error := (((y_pred.zip y).filter (fun p => decide (p.1 ≠ p.2))).length : ℝ)
      / (y.length : ℝ)
  let labels := uniqueSorted y
  let cn := labels.map (fun t => labels.map (fun p =>
    ((y.zip y_pred).filter (fun q => decide (q.1 = t ∧ q.2 = p))).length))
  let cn_norm := cn.map (fun row => row.map (fun (c : Nat) => (c : ℝ) / (row.sum : ℝ)))
  ⟨y_pred, error, cn, cn_norm, posteriors⟩

/-- Modelled interface of `np.random.default_rng(seed)`: a pseudo-random
generator is abstracted as the streams of draws it will deliver — a uniform
stream consumed by `rng.choice` and a standard-normal stream consumed by
`rng.normal`.  Every theorem below quantifies over the construction map, so
no property depends on the particular generator. -/
structure Generator where
  uniformDraw : Nat → ℝ
  normalDraw : Nat → ℝ

/-- Inverse-CDF walk for a categorical draw: first component whose running
cumulative weight exceeds the uniform draw `u`. -/
def categoricalAux (u : ℝ) : List ℝ → Nat → ℝ → Nat
  | [], i, _ => i
  | w :: rest, i, cum => if u < cum + w then i else categoricalAux u rest (i + 1) (cum + w)

/-- The draw `rng.choice(n_components, p=p)` for one sample, modelled by
inverse CDF on the normalized weights. -/
def categorical (p : List ℝ) (u : ℝ) : Nat :=
  categoricalAux u p 0 0

/-- The sampler `gm_sample`: normalize the priors, draw one component
assignment per sample from the categorical distribution, then fill each
row with `mean_k + sqrt(variance_k) · normal draw`, coordinate by
coordinate (sample `i`, coordinate `j` consumes normal draw `i·D + j`; the
bookkeeping order of draws is irrelevant to the properties stated below).
All randomness enters through the generator obtained from
`default_rng random_state`. -/
def gm_sample (default_rng : Option Nat → Generator) (n_samples : Nat)
    (priors : List ℝ) (means : List (List ℝ)) (variances : List ℝ)
    (random_state : Option Nat) : List (List ℝ) × List Nat :=
  let p := priors.map (fun w => w / priors.sum)
  let rng := default_rng random_state
  let components := (List.range n_samples).map (fun i => categorical p (rng.uniformDraw i))
  let D := (means.headD []).length
  let X := components.enum.map (fun ik =>
    (List.range D).map (fun j =>
      (means.getD ik.2 []).getD j 0
        + Real.sqrt (variances.getD ik.2 0) * rng.normalDraw (ik.1 * D + j)))
  (X, components)

/-- Trivial generator delivering only zero draws; used to instantiate the
determinism statement at a concrete input. -/
def zeroGen : Generator := ⟨fun _ => 0, fun _ => 0⟩

/-- Generator construction map that ignores the seed; a degenerate but
concrete instance of the `default_rng` interface. -/
def zeroRng : Option Nat → Generator := fun _ => zeroGen

end

/-- The concrete example dataset of the specification, exact version: class 0
samples −1, 0, 1 and class 1 samples 3, 4, 5, in dimension D = 1. -/
def exX : List (List ℚ) := [[-1], [0], [1], [3], [4], [5]]

/-- Real-valued copy of the example dataset, for the density evaluator. -/
def exXR : List (List ℝ) := [[-1], [0], [1], [3], [4], [5]]

/-- Labels of the example dataset. -/
def exY : List Nat := [0, 0, 0, 1, 1, 1]

/-! ### Helper lemmas -/

theorem length_rowsWithLabel {α : Type} (X : List (List α)) (y : List Nat) (k : Nat)
    (h : X.length = y.length) : (rowsWithLabel X y k).length = y.count k := by
  induction X generalizing y with
  | nil =>
    cases y with
    | nil => simp [rowsWithLabel]
    | cons b ys => simp at h
  | cons x xs ih =>
    cases y with
    | nil => simp at h
    | cons b ys =>
      simp only [List.length_cons, Nat.succ.injEq] at h
      have hih := ih ys h
      simp only [rowsWithLabel] at hih ⊢
      by_cases hb : b = k
      · simp [List.filter_cons, hb, List.count_cons, hih]
      · simp [List.filter_cons, hb, List.count_cons, hih, Ne.symm hb]

theorem mem_le_foldr_max (y : List Nat) (k : Nat) (hk : k ∈ y) :
    k ≤ y.foldr max 0 := by
  induction y with
  | nil => simp at hk
  | cons b ys ih =>
    rcases List.mem_cons.mp hk with h | h
    · subst h; exact le_max_left _ _
    · exact le_trans (ih h) (le_max_right _ _)

theorem mem_uniqueSorted (y : List Nat) (k : Nat) : k ∈ uniqueSorted y ↔ k ∈ y := by
  simp only [uniqueSorted, List.mem_filter, List.mem_range, decide_eq_true_eq]
  constructor
  · exact fun h => h.2
  · exact fun h => ⟨Nat.lt_succ_of_le (mem_le_foldr_max y k h), h⟩

theorem nodup_uniqueSorted (y : List Nat) : (uniqueSorted y).Nodup :=
  List.Nodup.filter _ (List.nodup_range _)

theorem toFinset_uniqueSorted (y : List Nat) :
    (uniqueSorted y).toFinset = y.toFinset := by
  ext k
  simp [mem_uniqueSorted]

theorem sum_counts (y : List Nat) :
    ((uniqueSorted y).map (fun k => y.count k)).sum = y.length := by
  rw [← List.sum_toFinset _ (nodup_uniqueSorted y), toFinset_uniqueSorted,
    List.sum_toFinset_count_eq_length]

theorem sum_map_div {β : Type} {α : Type} [DivisionRing α] (l : List β) (f : β → α)
    (c : α) : (l.map (fun b => f b / c)).sum = (l.map f).sum / c := by
  induction l with
  | nil => simp
  | cons b bs ih => simp [ih, add_div]

theorem priors_sum (X : List (List ℚ)) (y : List Nat)
    (hlen : X.length = y.length) (hy : y ≠ []) :
    ((uniqueSorted y).map
      (fun k => ((rowsWithLabel X y k).length : ℚ) / (X.length : ℚ))).sum = 1 := by
  have h1 : ∀ k, ((rowsWithLabel X y k).length : ℚ) = ((y.count k : ℕ) : ℚ) := by
    intro k; rw [length_rowsWithLabel X y k hlen]
  calc ((uniqueSorted y).map
      (fun k => ((rowsWithLabel X y k).length : ℚ) / (X.length : ℚ))).sum
      = ((uniqueSorted y).map (fun k => ((y.count k : ℕ) : ℚ) / (X.length : ℚ))).sum := by
        congr 1
        exact List.map_congr_left (fun k _ => by rw [h1 k])
    _ = ((uniqueSorted y).map (fun k => ((y.count k : ℕ) : ℚ))).sum / (X.length : ℚ) :=
        sum_map_div _ _ _
    _ = 1 := by
        have hnum : ((uniqueSorted y).map (fun k => ((y.count k : ℕ) : ℚ))).sum
            = ((y.length : ℕ) : ℚ) := by
          rw [← sum_counts y, Nat.cast_list_sum, List.map_map]
          rfl
        rw [hnum, hlen]
        have : y.length ≠ 0 := fun h => hy (List.length_eq_zero.mp h)
        field_simp

theorem classSpread_eq_spec {α : Type} [LinearOrderedField α] (X : List (List α))
    (y : List Nat) (k D : Nat) : classSpread X y k D = specClassSpread X y k D := by
  simp only [classSpread, specClassSpread, rowSqDev]
  rw [Nat.cast_mul]

/-! ### Claims -/

/-- C1: under the SHARED tag "i", the fitted model carries the single
variance `max((Σ_k v_k) / K, 1e-9)`, where `v_k` is the per-sample squared
deviation from the class mean summed over dimensions and samples divided by
(class sample count × D) — the unweighted mean across classes of the
per-class spread estimates. -/
theorem shared_variance_unweighted_mean (X : List (List ℚ)) (y : List Nat)
    (m : GaussianClassifier ℚ) (hlen : X.length = y.length) (hy : y ≠ [])
    (h : fit_gaussian_classifier X y "i" = Except.ok m) :
    m.variances =
      [max (((uniqueSorted y).map
          (fun k => specClassSpread X y k ((X.headD []).length))).sum
        / ((uniqueSorted y).length : ℚ)) (1 / 10 ^ 9)] := by
  simp [fit_gaussian_classifier, varFloor] at h
  rw [← h]
  simp [← classSpread_eq_spec]

/-- Witness for C1 at the concrete example dataset. -/
theorem shared_variance_unweighted_mean_witness :
    exX.length = exY.length ∧ exY ≠ [] ∧
    (fit_gaussian_classifier exX exY "i"
      = Except.ok ⟨"i", [1/2, 1/2], [[0], [4]], [2/3]⟩) ∧
    (⟨"i", [1/2, 1/2], [[0], [4]], [2/3]⟩ : GaussianClassifier ℚ).variances =
      [max (((uniqueSorted exY).map
          (fun k => specClassSpread exX exY k ((exX.headD []).length))).sum
        / ((uniqueSorted exY).length : ℚ)) (1 / 10 ^ 9)] :=
  ⟨by decide, by decide,
   by norm_num [exX, exY, fit_gaussian_classifier, uniqueSorted, rowsWithLabel,
     classMean, classSpread, rowSqDev, varFloor, List.range_succ] <;> decide,
   shared_variance_unweighted_mean exX exY _ (by decide) (by decide)
     (by norm_num [exX, exY, fit_gaussian_classifier, uniqueSorted, rowsWithLabel,
       classMean, classSpread, rowSqDev, varFloor, List.range_succ] <;> decide)⟩

/-- C3: fitting the concrete D = 1 dataset with class 0 samples −1, 0, 1 and
class 1 samples 3, 4, 5 yields priors [1/2, 1/2], means [[0], [4]],
PER_CLASS variances [2/3, 2/3] and SHARED variance [2/3]. -/
theorem concrete_fit_example :
    fit_gaussian_classifier exX exY "I"
      = Except.ok ⟨"I", [1/2, 1/2], [[0], [4]], [2/3, 2/3]⟩
    ∧ fit_gaussian_classifier exX exY "i"
      = Except.ok ⟨"i", [1/2, 1/2], [[0], [4]], [2/3]⟩ := by
  constructor <;>
  · norm_num [exX, exY, fit_gaussian_classifier, uniqueSorted, rowsWithLabel,
      classMean, classSpread, rowSqDev, varFloor, List.range_succ] <;> decide

/-- C5: every model fitted with a recognized tag has priors summing to 1
(well within 1e-9: exactly, in exact arithmetic) and every variance at
least 1e-9. -/
theorem fit_priors_sum_one_variances_floored (X : List (List ℚ)) (y : List Nat)
    (g : String) (m : GaussianClassifier ℚ)
    (hlen : X.length = y.length) (hy : y ≠ [])
    (h : fit_gaussian_classifier X y g = Except.ok m) :
    |m.priors.sum - 1| ≤ 1 / 10 ^ 9 ∧ ∀ v ∈ m.variances, 1 / 10 ^ 9 ≤ v := by
  by_cases hg : g = "I" ∨ g = "i"
  · simp only [fit_gaussian_classifier, if_pos hg] at h
    have hm := h
    rcases Except.ok.inj hm with rfl
    constructor
    · simp [priors_sum X y hlen hy]
    · intro v hv
      by_cases hI : g = "I"
      · simp only [if_pos hI, List.mem_map] at hv
        obtain ⟨w, _, rfl⟩ := hv
        simpa [varFloor] using le_max_right w (varFloor : ℚ)
      · simp only [if_neg hI, List.mem_singleton] at hv
        subst hv
        simpa [varFloor] using le_max_right _ (varFloor : ℚ)
  · simp only [fit_gaussian_classifier, if_neg hg] at h
    exact absurd h (by simp)

/-- Witness for C5 at the concrete example dataset, PER_CLASS tag. -/
theorem fit_priors_sum_one_variances_floored_witness :
    exX.length = exY.length ∧ exY ≠ [] ∧
    (fit_gaussian_classifier exX exY "I"
      = Except.ok ⟨"I", [1/2, 1/2], [[0], [4]], [2/3, 2/3]⟩) ∧
    (|(⟨"I", [1/2, 1/2], [[0], [4]], [2/3, 2/3]⟩ : GaussianClassifier ℚ).priors.sum - 1|
        ≤ 1 / 10 ^ 9
      ∧ ∀ v ∈ (⟨"I", [1/2, 1/2], [[0], [4]], [2/3, 2/3]⟩ :
          GaussianClassifier ℚ).variances, 1 / 10 ^ 9 ≤ v) :=
  ⟨by decide, by decide,
   by norm_num [exX, exY, fit_gaussian_classifier, uniqueSorted, rowsWithLabel,
     classMean, classSpread, rowSqDev, varFloor, List.range_succ] <;> decide,
   fit_priors_sum_one_variances_floored exX exY "I" _ (by decide) (by decide)
     (by norm_num [exX, exY, fit_gaussian_classifier, uniqueSorted, rowsWithLabel,
       classMean, classSpread, rowSqDev, varFloor, List.range_succ] <;> decide)⟩

/-- Any member of a `zipWith` image comes from members of the two lists. -/
theorem of_mem_zipWith {α β γ : Type} {f : α → β → γ} {l₁ : List α} {l₂ : List β}
    {c : γ} (h : c ∈ List.zipWith f l₁ l₂) :
    ∃ a b, a ∈ l₁ ∧ b ∈ l₂ ∧ c = f a b := by
  induction l₁ generalizing l₂ with
  | nil => simp at h
  | cons a as ih =>
    cases l₂ with
    | nil => simp at h
    | cons b bs =>
      rcases List.mem_cons.mp h with h | h
      · exact ⟨a, b, List.mem_cons_self _ _, List.mem_cons_self _ _, h⟩
      · obtain ⟨a', b', ha, hb, rfl⟩ := ih h
        exact ⟨a', b', List.mem_cons_of_mem _ ha, List.mem_cons_of_mem _ hb, rfl⟩

theorem sum_div_list (l : List ℝ) (c : ℝ) :
    (l.map (fun v => v / c)).sum = l.sum / c := by
  induction l with
  | nil => simp
  | cons b bs ih => simp [ih, add_div]

theorem pdf_pcx_map (X : List (List ℝ)) (model : GaussianClassifier ℝ) :
    (gaussian_pdf X model).p_c_given_x
      = (gaussian_pdf X model).px_and_c.map
          (fun row => row.map (fun v => v / max row.sum evFloor)) := by
  simp only [gaussian_pdf]
  rw [List.zipWith_map_right, List.zipWith_same]

theorem pdf_pxc_length (X : List (List ℝ)) (model : GaussianClassifier ℝ) :
    (gaussian_pdf X model).px_and_c.length = X.length := by
  simp [gaussian_pdf]

theorem pdf_px_getD (X : List (List ℝ)) (model : GaussianClassifier ℝ) (i : Nat)
    (hi : i < X.length) :
    (gaussian_pdf X model).px.getD i 0
      = max ((gaussian_pdf X model).px_and_c.getD i []).sum evFloor := by
  have hpx : (gaussian_pdf X model).px
      = (gaussian_pdf X model).px_and_c.map (fun row => max row.sum evFloor) := rfl
  have hlen : i < (gaussian_pdf X model).px_and_c.length := by
    rw [pdf_pxc_length]; exact hi
  rw [hpx, List.getD_eq_getElem _ _ (by simpa using hlen), List.getElem_map,
    List.getD_eq_getElem _ _ hlen]

theorem pdf_pcx_getD (X : List (List ℝ)) (model : GaussianClassifier ℝ) (i : Nat)
    (hi : i < X.length) :
    (gaussian_pdf X model).p_c_given_x.getD i []
      = ((gaussian_pdf X model).px_and_c.getD i []).map
          (fun v => v / max ((gaussian_pdf X model).px_and_c.getD i []).sum evFloor) := by
  have hlen : i < (gaussian_pdf X model).px_and_c.length := by
    rw [pdf_pxc_length]; exact hi
  rw [pdf_pcx_map, List.getD_eq_getElem _ _ (by simpa using hlen), List.getElem_map,
    List.getD_eq_getElem _ _ hlen]

theorem evFloor_pos : (0:ℝ) < evFloor := by norm_num [evFloor]

/-- Witness computation: at the query 0 the model with prior 1, mean 0 and
variance `1/(2π)` has coefficient 1 and exponent 0, so the density is 1. -/
theorem wit_classCond :
    classCond ⟨"i", [1], [[0]], [1 / (2 * Real.pi)]⟩ 1 [0] 0 = 1 := by
  simp only [classCond]
  norm_num
  rw [show (2 * Real.pi * (Real.pi⁻¹ * (1/2)) : ℝ) = 1 by field_simp; ring]
  rw [Real.one_rpow]

/-- Counterexample computation: at the query 4 the same model has density
`exp(-16π)`. -/
theorem cex_classCond :
    classCond ⟨"i", [1], [[0]], [1 / (2 * Real.pi)]⟩ 1 [4] 0
      = Real.exp (-(16 * Real.pi)) := by
  simp only [classCond]
  norm_num
  rw [show (2 * Real.pi * (Real.pi⁻¹ * (1/2)) : ℝ) = 1 by field_simp; ring]
  rw [Real.one_rpow]
  norm_num
  field_simp
  ring

/-- The raw evidence of the witness model at query 0 is 1 ≥ the floor. -/
theorem wit_evidence_ge_floor :
    evFloor ≤ ((gaussian_pdf [[0]] ⟨"i", [1], [[0]], [1 / (2 * Real.pi)]⟩).px_and_c.getD
      0 []).sum := by
  have h : (gaussian_pdf [[0]] ⟨"i", [1], [[0]], [1 / (2 * Real.pi)]⟩).px_and_c
      = [[classCond ⟨"i", [1], [[0]], [1 / (2 * Real.pi)]⟩ 1 [0] 0 * 1]] := rfl
  rw [h]
  simp only [List.getD_cons_zero, List.sum_cons, List.sum_nil, mul_one, add_zero]
  rw [wit_classCond, evFloor]
  norm_num

/-- The density `exp(-16π)` is below `(2^48)⁻¹`, hence far below the
evidence floor. -/
theorem exp_neg16pi_lt : Real.exp (-(16 * Real.pi)) < ((2:ℝ) ^ (48:ℕ))⁻¹ := by
  have h1 : Real.exp (-(16 * Real.pi)) < Real.exp (-48) := by
    apply Real.exp_lt_exp.mpr
    nlinarith [Real.pi_gt_three]
  have h4 : Real.exp 48 = Real.exp 1 ^ (48:ℕ) := by
    rw [← Real.exp_nat_mul]; norm_num
  have h5 : (2:ℝ) < Real.exp 1 := lt_trans (by norm_num) Real.exp_one_gt_d9
  have h6 : (2:ℝ) ^ (48:ℕ) < Real.exp 1 ^ (48:ℕ) :=
    pow_lt_pow_left₀ h5 (by norm_num) (by norm_num)
  have h2 : Real.exp (-48) < ((2:ℝ) ^ (48:ℕ))⁻¹ := by
    rw [Real.exp_neg]
    apply inv_lt_inv_of_lt (by positivity)
    rw [h4]
    exact h6
  linarith

/-- C2 (amended): for every model and query matrix, the joint equals the
class-conditional density times the priors elementwise, the posterior
equals the joint divided by the returned evidence — and on every row whose
joint sum is at least the 1e-12 evidence floor, the returned evidence
equals the row sum of the joint and the posterior row sums to 1 (well
within 1e-6: exactly, in exact arithmetic). -/
theorem density_outputs_consistency (model : GaussianClassifier ℝ)
    (X : List (List ℝ)) (i : Nat) (hi : i < X.length)
    (hev : evFloor ≤ ((gaussian_pdf X model).px_and_c.getD i []).sum) :
    (gaussian_pdf X model).px_and_c
        = (gaussian_pdf X model).px_given_c.map
            (fun row => List.zipWith (fun a b => a * b) row model.priors)
    ∧ (gaussian_pdf X model).px.getD i 0
        = ((gaussian_pdf X model).px_and_c.getD i []).sum
    ∧ (gaussian_pdf X model).p_c_given_x.getD i []
        = ((gaussian_pdf X model).px_and_c.getD i []).map
            (fun v => v / (gaussian_pdf X model).px.getD i 0)
    ∧ |((gaussian_pdf X model).p_c_given_x.getD i []).sum - 1| ≤ 1 / 10 ^ 6 := by
  have hmax : max ((gaussian_pdf X model).px_and_c.getD i []).sum evFloor
      = ((gaussian_pdf X model).px_and_c.getD i []).sum := max_eq_left hev
  have hpx := pdf_px_getD X model i hi
  have hpcx := pdf_pcx_getD X model i hi
  refine ⟨rfl, by rw [hpx, hmax], ?_, ?_⟩
  · rw [hpcx, hpx]
  · rw [hpcx, hmax, sum_div_list,
      div_self (ne_of_gt (lt_of_lt_of_le evFloor_pos hev))]
    norm_num

/-- Witness for C2 at a concrete model and query whose evidence is 1. -/
theorem density_outputs_consistency_witness :
    ((0:Nat) < ([[(0:ℝ)]]).length)
    ∧ (evFloor ≤ ((gaussian_pdf [[0]]
        ⟨"i", [1], [[0]], [1 / (2 * Real.pi)]⟩).px_and_c.getD 0 []).sum)
    ∧ ((gaussian_pdf [[0]] ⟨"i", [1], [[0]], [1 / (2 * Real.pi)]⟩).px.getD 0 0
        = ((gaussian_pdf [[0]]
            ⟨"i", [1], [[0]], [1 / (2 * Real.pi)]⟩).px_and_c.getD 0 []).sum) :=
  ⟨by decide, wit_evidence_ge_floor,
   (density_outputs_consistency ⟨"i", [1], [[0]], [1 / (2 * Real.pi)]⟩ [[0]] 0
     (by decide) wit_evidence_ge_floor).2.1⟩

/-- Counterexample to C2 as stated: at this model and query the raw
evidence `exp(-16π)` lies below the 1e-12 floor, so the returned evidence
is the floor rather than the joint row sum, and the posterior row sums to
far less than 1. -/
theorem density_outputs_consistency_cex :
    (gaussian_pdf [[4]] ⟨"i", [1], [[0]], [1 / (2 * Real.pi)]⟩).px.getD 0 0
        ≠ ((gaussian_pdf [[4]]
            ⟨"i", [1], [[0]], [1 / (2 * Real.pi)]⟩).px_and_c.getD 0 []).sum
    ∧ ¬ (|((gaussian_pdf [[4]]
          ⟨"i", [1], [[0]], [1 / (2 * Real.pi)]⟩).p_c_given_x.getD 0 []).sum - 1|
        ≤ 1 / 10 ^ 6) := by
  have hpxc : (gaussian_pdf [[4]] ⟨"i", [1], [[0]], [1 / (2 * Real.pi)]⟩).px_and_c
      = [[classCond ⟨"i", [1], [[0]], [1 / (2 * Real.pi)]⟩ 1 [4] 0 * 1]] := rfl
  have hE := cex_classCond
  have hlt := exp_neg16pi_lt
  have hpos := Real.exp_pos (-(16 * Real.pi))
  have hsum : ((gaussian_pdf [[4]]
      ⟨"i", [1], [[0]], [1 / (2 * Real.pi)]⟩).px_and_c.getD 0 []).sum
      = Real.exp (-(16 * Real.pi)) := by
    rw [hpxc]
    simp only [List.getD_cons_zero, List.sum_cons, List.sum_nil, mul_one, add_zero]
    exact hE
  have hfloor : ((gaussian_pdf [[4]]
      ⟨"i", [1], [[0]], [1 / (2 * Real.pi)]⟩).px_and_c.getD 0 []).sum < evFloor := by
    rw [hsum]
    calc Real.exp (-(16 * Real.pi)) < ((2:ℝ) ^ (48:ℕ))⁻¹ := hlt
    _ < evFloor := by norm_num [evFloor]
  have hpx := pdf_px_getD [[4]] ⟨"i", [1], [[0]], [1 / (2 * Real.pi)]⟩ 0 (by decide)
  have hmax : max ((gaussian_pdf [[4]]
      ⟨"i", [1], [[0]], [1 / (2 * Real.pi)]⟩).px_and_c.getD 0 []).sum evFloor
      = evFloor := max_eq_right (le_of_lt hfloor)
  constructor
  · rw [hpx, hmax]
    exact fun h => absurd (h ▸ hfloor) (lt_irrefl _)
  · have hpcx := pdf_pcx_getD [[4]] ⟨"i", [1], [[0]], [1 / (2 * Real.pi)]⟩ 0 (by decide)
    rw [hpcx, hmax, sum_div_list, hsum]
    have h1 : Real.exp (-(16 * Real.pi)) / evFloor
        < ((2:ℝ) ^ (48:ℕ))⁻¹ / evFloor := (div_lt_div_right evFloor_pos).mpr hlt
    have h2 : ((2:ℝ) ^ (48:ℕ))⁻¹ / evFloor < 1/100 := by norm_num [evFloor]
    have hspos : 0 < Real.exp (-(16 * Real.pi)) / evFloor :=
      div_pos hpos evFloor_pos
    rw [abs_sub_comm,
      abs_of_pos (show (0:ℝ) < 1 - Real.exp (-(16 * Real.pi)) / evFloor by linarith)]
    intro hcon
    linarith

/-- Real-valued fit of the example dataset, PER_CLASS tag. -/
theorem fitR_I_example :
    fit_gaussian_classifier exXR exY "I"
      = Except.ok ⟨"I", [1/2, 1/2], [[0], [4]], [2/3, 2/3]⟩ := by
  norm_num [exXR, exY, fit_gaussian_classifier, uniqueSorted, rowsWithLabel,
    classMean, classSpread, rowSqDev, varFloor, List.range_succ] <;> decide

/-- Real-valued fit of the example dataset, SHARED tag. -/
theorem fitR_i_example :
    fit_gaussian_classifier exXR exY "i"
      = Except.ok ⟨"i", [1/2, 1/2], [[0], [4]], [2/3]⟩ := by
  norm_num [exXR, exY, fit_gaussian_classifier, uniqueSorted, rowsWithLabel,
    classMean, classSpread, rowSqDev, varFloor, List.range_succ] <;> decide

/-- A two-class posterior row whose joint entries are both `c/2` with
`c` at least the evidence floor normalizes to exactly one half. -/
theorem half_point (c : ℝ) (hpos : 0 < c) (hfloor : evFloor ≤ c) :
    c * (1/2) / ((c * (1/2) + c * (1/2)) ⊔ evFloor) = 1/2 := by
  have hsum : c * (1/2) + c * (1/2) = c := by ring
  rw [hsum, max_eq_left hfloor]
  field_simp
  ring

/-- The midpoint density `(2π·(2/3))^(-1/2) · exp(-3)` is positive. -/
theorem midDensity_pos :
    (0:ℝ) < ((2 * Real.pi * (2/3)) ^ ((1:ℝ)/2))⁻¹ * Real.exp (-3) := by
  have hb : (0:ℝ) < 2 * Real.pi * (2/3) := by positivity
  have h1 : (0:ℝ) < (2 * Real.pi * (2/3)) ^ ((1:ℝ) / 2) :=
    Real.rpow_pos_of_pos hb _
  positivity

/-- The midpoint density `(2π·(2/3))^(-1/2) · exp(-3)` is at least the
evidence floor: the coefficient exceeds 10/21 (since `2π·(2/3) < 4.41`)
and `exp(-3)` exceeds 1/21 (since `exp 3 < 21`). -/
theorem midDensity_ge_floor :
    evFloor ≤ ((2 * Real.pi * (2/3)) ^ ((1:ℝ)/2))⁻¹ * Real.exp (-3) := by
  have hb : (0:ℝ) < 2 * Real.pi * (2/3) := by positivity
  have hrw : (2 * Real.pi * (2/3) : ℝ) ^ ((1:ℝ) / 2)
      = Real.sqrt (2 * Real.pi * (2/3)) := by
    rw [Real.sqrt_eq_rpow]
  have hπ := Real.pi_lt_d2
  have hsq : Real.sqrt (2 * Real.pi * (2/3)) < 21/10 := by
    rw [show (21:ℝ)/10 = Real.sqrt ((21/10)^2) by
      rw [Real.sqrt_sq]; norm_num]
    apply Real.sqrt_lt_sqrt (le_of_lt hb)
    nlinarith
  have hsqpos : 0 < Real.sqrt (2 * Real.pi * (2/3)) := Real.sqrt_pos.mpr hb
  have hcoef : (10:ℝ)/21 ≤ (Real.sqrt (2 * Real.pi * (2/3)))⁻¹ := by
    rw [← one_div, le_one_div (by norm_num) hsqpos]
    linarith
  have hexp3 : Real.exp 3 < 21 := by
    have h : Real.exp 3 = Real.exp 1 ^ (3:ℕ) := by
      rw [← Real.exp_nat_mul]; norm_num
    have h2 := Real.exp_one_lt_d9
    have h3 : Real.exp 1 ^ (3:ℕ) < 2.7182818286 ^ (3:ℕ) :=
      pow_lt_pow_left₀ h2 (le_of_lt (Real.exp_pos 1)) (by norm_num)
    rw [h]
    calc Real.exp 1 ^ (3:ℕ) < 2.7182818286 ^ (3:ℕ) := h3
    _ < 21 := by norm_num
  have hexpneg : (1:ℝ)/21 ≤ Real.exp (-3) := by
    rw [Real.exp_neg]
    nlinarith [mul_inv_cancel₀ (ne_of_gt (Real.exp_pos 3)), Real.exp_pos 3,
      (Real.exp_pos 3).le, inv_nonneg.mpr (Real.exp_pos 3).le]
  rw [hrw]
  have hexppos := Real.exp_pos (-3)
  have hinvpos : (0:ℝ) < (Real.sqrt (2 * Real.pi * (2/3)))⁻¹ := by positivity
  rw [evFloor]
  nlinarith [mul_le_mul hcoef hexpneg (by norm_num) (le_of_lt hinvpos)]

/-- At the midpoint query 2 the SHARED example model has posterior
exactly `[1/2, 1/2]`. -/
theorem midpoint_pdf_shared :
    (gaussian_pdf [[2]] ⟨"i", [1/2, 1/2], [[0], [4]], [2/3]⟩).p_c_given_x
      = [[1/2, 1/2]] := by
  norm_num [gaussian_pdf, classCond, List.range_succ]
  exact half_point (((2 * Real.pi * (2/3)) ^ ((1:ℝ)/2))⁻¹ * Real.exp (-3))
    midDensity_pos midDensity_ge_floor

/-- At the midpoint query 2 the PER_CLASS example model has posterior
exactly `[1/2, 1/2]`. -/
theorem midpoint_pdf_perclass :
    (gaussian_pdf [[2]] ⟨"I", [1/2, 1/2], [[0], [4]], [2/3, 2/3]⟩).p_c_given_x
      = [[1/2, 1/2]] := by
  norm_num [gaussian_pdf, classCond, List.range_succ]
  exact half_point (((2 * Real.pi * (2/3)) ^ ((1:ℝ)/2))⁻¹ * Real.exp (-3))
    midDensity_pos midDensity_ge_floor

/-- C4: with the model fitted from the concrete example dataset (either
covariance tag), the midpoint query 2 has posterior exactly `[1/2, 1/2]`
and the predicted label is class 0: the argmax scan breaks the tie at the
lowest class index. -/
theorem midpoint_posterior_tie (mI mS : GaussianClassifier ℝ)
    (hI : fit_gaussian_classifier exXR exY "I" = Except.ok mI)
    (hS : fit_gaussian_classifier exXR exY "i" = Except.ok mS) :
    ((evaluate_classifier [[2]] [0] mI).posteriors = [[1/2, 1/2]]
      ∧ (evaluate_classifier [[2]] [0] mI).y_pred = [0])
    ∧ ((evaluate_classifier [[2]] [0] mS).posteriors = [[1/2, 1/2]]
      ∧ (evaluate_classifier [[2]] [0] mS).y_pred = [0]) := by
  rw [fitR_I_example] at hI
  rw [fitR_i_example] at hS
  rcases Except.ok.inj hI with rfl
  rcases Except.ok.inj hS with rfl
  have eI : (evaluate_classifier [[2]] [0]
      (⟨"I", [1/2, 1/2], [[0], [4]], [2/3, 2/3]⟩ : GaussianClassifier ℝ)).posteriors
      = (gaussian_pdf [[2]] ⟨"I", [1/2, 1/2], [[0], [4]], [2/3, 2/3]⟩).p_c_given_x := rfl
  have eI' : (evaluate_classifier [[2]] [0]
      (⟨"I", [1/2, 1/2], [[0], [4]], [2/3, 2/3]⟩ : GaussianClassifier ℝ)).y_pred
      = ((gaussian_pdf [[2]]
          ⟨"I", [1/2, 1/2], [[0], [4]], [2/3, 2/3]⟩).p_c_given_x).map listArgmax := rfl
  have eS : (evaluate_classifier [[2]] [0]
      (⟨"i", [1/2, 1/2], [[0], [4]], [2/3]⟩ : GaussianClassifier ℝ)).posteriors
      = (gaussian_pdf [[2]] ⟨"i", [1/2, 1/2], [[0], [4]], [2/3]⟩).p_c_given_x := rfl
  have eS' : (evaluate_classifier [[2]] [0]
      (⟨"i", [1/2, 1/2], [[0], [4]], [2/3]⟩ : GaussianClassifier ℝ)).y_pred
      = ((gaussian_pdf [[2]]
          ⟨"i", [1/2, 1/2], [[0], [4]], [2/3]⟩).p_c_given_x).map listArgmax := rfl
  rw [eI, eI', eS, eS', midpoint_pdf_perclass, midpoint_pdf_shared]
  norm_num [listArgmax, List.enum, List.enumFrom]

/-- Witness for C4 at the fitted example models. -/
theorem midpoint_posterior_tie_witness :
    (fit_gaussian_classifier exXR exY "I"
      = Except.ok ⟨"I", [1/2, 1/2], [[0], [4]], [2/3, 2/3]⟩)
    ∧ (fit_gaussian_classifier exXR exY "i"
      = Except.ok ⟨"i", [1/2, 1/2], [[0], [4]], [2/3]⟩)
    ∧ (evaluate_classifier [[2]] [0]
        (⟨"i", [1/2, 1/2], [[0], [4]], [2/3]⟩ : GaussianClassifier ℝ)).posteriors
      = [[1/2, 1/2]]
    ∧ (evaluate_classifier [[2]] [0]
        (⟨"i", [1/2, 1/2], [[0], [4]], [2/3]⟩ : GaussianClassifier ℝ)).y_pred = [0] :=
  ⟨fitR_I_example, fitR_i_example,
   (midpoint_posterior_tie _ _ fitR_I_example fitR_i_example).2.1,
   (midpoint_posterior_tie _ _ fitR_I_example fitR_i_example).2.2⟩

/-- C6: fitting returns a model exactly for the two recognized covariance
tags "I" and "i", and an `Unsupported covariance type` error exactly for
every other tag. -/
theorem fit_unsupported_mode_error (X : List (List ℚ)) (y : List Nat) (g : String) :
    ((∃ m, fit_gaussian_classifier X y g = Except.ok m) ↔ (g = "I" ∨ g = "i"))
    ∧ ((fit_gaussian_classifier X y g
        = Except.error ("Unsupported covariance type " ++ g))
      ↔ ¬(g = "I" ∨ g = "i")) := by
  by_cases hg : g = "I" ∨ g = "i" <;>
    simp [fit_gaussian_classifier, hg]

/-- Row normalization of a count row with nonzero sum yields row sum 1. -/
theorem normalizeRow_sum_one (row : List Nat) (h : row.sum ≠ 0) :
    (row.map (fun (c : ℕ) => (c : ℝ) / (row.sum : ℝ))).sum = 1 := by
  rw [sum_map_div row (fun c => (c : ℝ)) ((row.sum : ℕ) : ℝ), ← Nat.cast_list_sum,
    div_self (by exact_mod_cast h)]

/-- Row normalization of a count row divides by the cast row sum; with row
sum zero every quotient is a division by zero, hence 0 (as `nan_to_num`
produces on the numpy side). -/
theorem normalizeRow_zero (row : List Nat) (h : row.sum = 0) :
    ∀ v ∈ row.map (fun (c : ℕ) => (c : ℝ) / (row.sum : ℝ)), v = 0 := by
  intro v hv
  obtain ⟨c, _, rfl⟩ := List.mem_map.mp hv
  rw [h]
  simp

/-- The row-normalized matrix of `evaluate_classifier` is the raw count
matrix with every row divided by its own sum. -/
theorem eval_confusion_norm_def (X : List (List ℝ)) (y : List Nat)
    (model : GaussianClassifier ℝ) :
    (evaluate_classifier X y model).confusion_norm
      = (evaluate_classifier X y model).confusion.map
          (fun row => row.map (fun (c : Nat) => (c : ℝ) / (row.sum : ℝ))) := rfl

/-- C7: every row of the row-normalized confusion matrix returned by
`evaluate_classifier` sums to 1, except that a row whose raw counts are all
zero stays a row of zeros rather than becoming NaN. -/
theorem confusion_norm_row_sums (X : List (List ℝ)) (y : List Nat)
    (model : GaussianClassifier ℝ) (i : Nat)
    (hi : i < (evaluate_classifier X y model).confusion.length) :
    ((((evaluate_classifier X y model).confusion.getD i []).sum ≠ 0 →
        ((evaluate_classifier X y model).confusion_norm.getD i []).sum = 1)
    ∧ (((evaluate_classifier X y model).confusion.getD i []).sum = 0 →
        ∀ v ∈ (evaluate_classifier X y model).confusion_norm.getD i [], v = 0)) := by
  have hrow : (evaluate_classifier X y model).confusion_norm.getD i []
      = ((evaluate_classifier X y model).confusion.getD i []).map
          (fun (c : Nat) => (c : ℝ)
            / ((((evaluate_classifier X y model).confusion.getD i []).sum : ℕ) : ℝ)) := by
    rw [eval_confusion_norm_def,
      List.getD_eq_getElem _ _ (by simpa using hi), List.getElem_map,
      List.getD_eq_getElem _ _ hi]
  rw [hrow]
  exact ⟨normalizeRow_sum_one _, normalizeRow_zero _⟩

/-- Witness for C7 at a one-point dataset and a concrete model. -/
theorem confusion_norm_row_sums_witness :
    0 < (evaluate_classifier [[0]] [0] ⟨"i", [1], [[0]], [1]⟩).confusion.length
    ∧ ((((evaluate_classifier [[0]] [0]
          ⟨"i", [1], [[0]], [1]⟩).confusion.getD 0 []).sum ≠ 0 →
        ((evaluate_classifier [[0]] [0]
          ⟨"i", [1], [[0]], [1]⟩).confusion_norm.getD 0 []).sum = 1)
    ∧ (((evaluate_classifier [[0]] [0]
          ⟨"i", [1], [[0]], [1]⟩).confusion.getD 0 []).sum = 0 →
        ∀ v ∈ (evaluate_classifier [[0]] [0]
          ⟨"i", [1], [[0]], [1]⟩).confusion_norm.getD 0 [], v = 0)) :=
  ⟨by simp [evaluate_classifier, uniqueSorted]; decide,
   confusion_norm_row_sums [[0]] [0] ⟨"i", [1], [[0]], [1]⟩ 0
     (by simp [evaluate_classifier, uniqueSorted]; decide)⟩

/-- A list whose members are all positive has nonnegative `getD` with
default 0. -/
theorem getD_zero_nonneg (l : List ℝ) (hv : ∀ v ∈ l, 0 < v) (k : Nat) :
    0 ≤ l.getD k 0 := by
  by_cases hk : k < l.length
  · rw [List.getD_eq_getElem _ _ hk]
    exact le_of_lt (hv _ (List.getElem_mem hk))
  · rw [List.getD_eq_default _ _ (le_of_not_lt hk)]

/-- The class-conditional density is nonnegative whenever the model's
variances are positive: the coefficient is the reciprocal of a nonnegative
real power and the exponential is positive. -/
theorem classCond_nonneg (model : GaussianClassifier ℝ) (D : Nat) (x : List ℝ)
    (k : Nat) (hv : ∀ v ∈ model.variances, 0 < v) :
    0 ≤ classCond model D x k := by
  have hs : 0 ≤ (if model.gtype = "i" then model.variances.getD 0 0
      else model.variances.getD k 0) := by
    split <;> exact getD_zero_nonneg _ hv _
  simp only [classCond]
  apply mul_nonneg
  · apply div_nonneg (by norm_num)
    apply Real.rpow_nonneg
    have hπ := Real.pi_pos
    nlinarith
  · exact le_of_lt (Real.exp_pos _)

/-- C10: for every model with nonnegative priors and positive variances
and every query matrix, each posterior entry lies in [0, 1] and each
posterior row sum is at most 1 — also on rows whose raw evidence fell
below the 1e-12 floor, where the division is by the floor itself. -/
theorem posterior_unit_interval (model : GaussianClassifier ℝ)
    (X : List (List ℝ)) (hp : ∀ p ∈ model.priors, 0 ≤ p)
    (hv : ∀ v ∈ model.variances, 0 < v) :
    (∀ row ∈ (gaussian_pdf X model).p_c_given_x,
      (∀ q ∈ row, 0 ≤ q ∧ q ≤ 1) ∧ row.sum ≤ 1)
    ∧ ∀ i, i < X.length →
        ((gaussian_pdf X model).px_and_c.getD i []).sum < evFloor →
        ((gaussian_pdf X model).p_c_given_x.getD i []).sum < 1 := by
  constructor
  swap
  · intro i hi hflo
    rw [pdf_pcx_getD X model i hi, max_eq_right (le_of_lt hflo), sum_div_list]
    exact (div_lt_one evFloor_pos).mpr hflo
  intro row hrow
  rw [pdf_pcx_map] at hrow
  obtain ⟨r, hr, rfl⟩ := List.mem_map.mp hrow
  have hentry : ∀ v ∈ r, 0 ≤ v := by
    simp only [gaussian_pdf] at hr
    obtain ⟨ccrow, hcc, rfl⟩ := List.mem_map.mp hr
    obtain ⟨x, _, rfl⟩ := List.mem_map.mp hcc
    intro v hvmem
    obtain ⟨a, b, ha, hb, rfl⟩ := of_mem_zipWith hvmem
    obtain ⟨k, _, rfl⟩ := List.mem_map.mp ha
    exact mul_nonneg (classCond_nonneg model _ x k hv) (hp b hb)
  have hS : 0 ≤ r.sum := List.sum_nonneg hentry
  have hmaxpos : 0 < max r.sum evFloor :=
    lt_of_lt_of_le evFloor_pos (le_max_right _ _)
  constructor
  · intro q hq
    obtain ⟨v, hvr, rfl⟩ := List.mem_map.mp hq
    refine ⟨div_nonneg (hentry v hvr) hmaxpos.le, ?_⟩
    apply div_le_one_of_le _ hmaxpos.le
    exact le_trans (List.single_le_sum hentry v hvr) (le_max_left _ _)
  · rw [sum_div_list]
    exact div_le_one_of_le (le_max_left _ _) hmaxpos.le

/-- Witness for C10 at a concrete model and query. -/
theorem posterior_unit_interval_witness :
    (∀ p ∈ (⟨"i", [1], [[0]], [1]⟩ : GaussianClassifier ℝ).priors, 0 ≤ p)
    ∧ (∀ v ∈ (⟨"i", [1], [[0]], [1]⟩ : GaussianClassifier ℝ).variances, 0 < v)
    ∧ (∀ row ∈ (gaussian_pdf [[0]] ⟨"i", [1], [[0]], [1]⟩).p_c_given_x,
        (∀ q ∈ row, 0 ≤ q ∧ q ≤ 1) ∧ row.sum ≤ 1)
    ∧ ∀ i, i < ([[(0:ℝ)]]).length →
        ((gaussian_pdf [[0]] ⟨"i", [1], [[0]], [1]⟩).px_and_c.getD i []).sum < evFloor →
        ((gaussian_pdf [[0]] ⟨"i", [1], [[0]], [1]⟩).p_c_given_x.getD i []).sum < 1 :=
  ⟨by simp, by simp,
   (posterior_unit_interval ⟨"i", [1], [[0]], [1]⟩ [[0]] (by simp) (by simp)).1,
   (posterior_unit_interval ⟨"i", [1], [[0]], [1]⟩ [[0]] (by simp) (by simp)).2⟩

/-- C8 records a code bug: after a call of `gm_sample`, the contents of a
float priors array passed by the caller hold the normalized weights, not
the original ones — `np.asarray` aliases the buffer and `priors /=
priors.sum()` writes through it.  At priors `[2, 1]` the buffer ends as
`[2/3, 1/3]`; `means` and `variances` are untouched. -/
theorem gm_sample_mutates_priors :
    gm_sample_argContents [2, 1] [[0], [2]] [1/2, 3]
      = ([2/3, 1/3], [[0], [2]], [1/2, 3])
    ∧ ([2/3, 1/3] : List ℚ) ≠ [2, 1] := by
  constructor
  · norm_num [gm_sample_argContents]
  · intro h
    rw [List.cons_eq_cons] at h
    exact absurd h.1 (by norm_num)

/-- C9: `gm_sample` is deterministic in its seed — all randomness enters
through the generator constructed from the seed argument, so two calls
with equal seeds and the same mixture specification and sample count
return identical datasets. -/
theorem gm_sample_deterministic (default_rng : Option Nat → Generator)
    (n : Nat) (priors : List ℝ) (means : List (List ℝ)) (variances : List ℝ)
    (seed₁ seed₂ : Option Nat) (hseed : seed₁ = seed₂) :
    gm_sample default_rng n priors means variances seed₁
      = gm_sample default_rng n priors means variances seed₂ := by
  rw [hseed]

/-- Witness for C9 at a concrete generator map, seed and specification. -/
theorem gm_sample_deterministic_witness :
    (some 37 = some 37)
    ∧ gm_sample zeroRng 3 [2, 1] [[0], [2]] [1/2, 3] (some 37)
      = gm_sample zeroRng 3 [2, 1] [[0], [2]] [1/2, 3] (some 37) :=
  ⟨rfl, gm_sample_deterministic zeroRng 3 [2, 1] [[0], [2]] [1/2, 3]
    (some 37) (some 37) rfl⟩

end Lab02
